import Mathlib

/-!
A verification development for the `smallsh` command interpreter
(`src/smallsh.c`).  The C source is shallowly embedded: the line parser
`get_input`, the SIGTSTP handler `parent_SIGTSTP`, the built-ins
`local_cd` / `local_status`, the shutdown sweep `order_66`, the dispatcher
`local_functions`, the pre-fork phase of the launcher `exec_me`, and the
main read/dispatch loop are all translated into executable Lean functions.
OS effects (chdir, open, the prompt, child processes) are abstracted into
explicit parameters and event lists; everything else follows the C control
flow line by line.
-/

namespace Smallsh

/-! ## Constants (smallsh.c lines 23-44) -/

def BG_MODE_ON : Bool := true
def BG_MODE_OFF : Bool := false
def NO_EXIT : Nat := 1
def DO_EXIT : Nat := 0
def EXIT_SUCCESS : Nat := 0
def EXIT_FAILURE : Nat := 1
def SIGTERM : Nat := 15
def SIGKILL : Nat := 9
def LOCAL_FUNCTION : Nat := 0
def EXEC_FUNCTION : Nat := 1
def PARENT_PROCESS : Nat := 0
def FG_CHILD_PROCESS : Nat := 1
def BG_CHILD_PROCESS : Nat := 2

/-- The C NUL character, written into `command_string` by the parser. -/
def NUL : Char := Char.ofNat 0

/-! ## Line parser (`get_input`, smallsh.c lines 353-457)

The C function runs one left-to-right pass over `input_buffer` with a
one-character lookahead (`input_buffer[outer_counter + 1]`).  We embed it
as a character automaton that consumes exactly one character per step; the
lookahead is carried in the mode (`sawGt` after `>`, `sawLt` after `<`,
`sawDollar` after `$`), and the redirection-path inner loops (lines
394-401 and 411-418) become the `readOut`/`readIn` modes.  The automaton
is equivalent to the C loop: when the lookahead fails the pending
character is appended to the command buffer and the current character is
reprocessed in normal mode, exactly as the C `else` branch (lines 430-433)
does after the guards `input_buffer[outer_counter+1] == ' '` (or `'$'`)
fail. -/

/-- State accumulated by the scan: the growing `command_string`, the two
redirection-path buffers (initialized from the caller's defaults,
smallsh.c lines 380-381) and the two redirection flags. -/
structure ScanSt where
  cmd : List Char
  in_path : List Char
  out_path : List Char
  in_re : Bool
  out_re : Bool
deriving DecidableEq

/-- Scanner mode: `normal` scanning, a pending `>`/`<`/`$` awaiting its
lookahead character, or copying a redirection path. -/
inductive ScanMode where
  | normal
  | sawGt
  | sawLt
  | sawDollar
  | readOut (acc : List Char)
  | readIn (acc : List Char)
deriving DecidableEq

/-- One step of the scan in `normal` mode (the branch heads at smallsh.c
lines 384, 387, 404, 421 and the default copy at 430-433).  A newline
writes a NUL into the command buffer (line 385); `>`/`<`/`$` move to a
lookahead mode; anything else is copied verbatim. -/
def normal_step (c : Char) (st : ScanSt) : ScanSt × ScanMode :=
  if c = '\n' then ({ st with cmd := st.cmd ++ [NUL] }, ScanMode.normal)
  else if c = '>' then (st, ScanMode.sawGt)
  else if c = '<' then (st, ScanMode.sawLt)
  else if c = '$' then (st, ScanMode.sawDollar)
  else ({ st with cmd := st.cmd ++ [c] }, ScanMode.normal)

/-- One step of the scan in any mode.  `pid_str` is the decimal string of
the interpreter's PID (smallsh.c line 368).  After `>` the space lookahead
either opens output-path copying with the flag turned on (lines 390-393)
or the `>` is appended as an ordinary character; similarly for `<` and for
the `$$` expansion (lines 424-429).  In `readOut`/`readIn`, a space or a
newline ends the path (lines 395-396 / 412-413, with the delimiter then
consumed by the outer `for` increment) and stores it. -/
def scan_step (pid_str : List Char) (m : ScanMode) (st : ScanSt) (c : Char) :
    ScanSt × ScanMode :=
  match m with
  | ScanMode.normal => normal_step c st
  | ScanMode.sawGt =>
      if c = ' ' then ({ st with out_re := true }, ScanMode.readOut [])
      else normal_step c { st with cmd := st.cmd ++ ['>'] }
  | ScanMode.sawLt =>
      if c = ' ' then ({ st with in_re := true }, ScanMode.readIn [])
      else normal_step c { st with cmd := st.cmd ++ ['<'] }
  | ScanMode.sawDollar =>
      if c = '$' then ({ st with cmd := st.cmd ++ pid_str }, ScanMode.normal)
      else normal_step c { st with cmd := st.cmd ++ ['$'] }
  | ScanMode.readOut acc =>
      if c = ' ' ∨ c = '\n' then ({ st with out_path := acc }, ScanMode.normal)
      else (st, ScanMode.readOut (acc ++ [c]))
  | ScanMode.readIn acc =>
      if c = ' ' ∨ c = '\n' then ({ st with in_path := acc }, ScanMode.normal)
      else (st, ScanMode.readIn (acc ++ [c]))

/-- End of input.  A pending `>`/`<`/`$` whose lookahead guard
(`outer_counter < input_length - 1`) failed at the last character is
copied verbatim (the C `else` branch); a path being read is stored (the
inner loops break on `outer_counter == input_length`). -/
def scan_flush (m : ScanMode) (st : ScanSt) : ScanSt :=
  match m with
  | ScanMode.normal => st
  | ScanMode.sawGt => { st with cmd := st.cmd ++ ['>'] }
  | ScanMode.sawLt => { st with cmd := st.cmd ++ ['<'] }
  | ScanMode.sawDollar => { st with cmd := st.cmd ++ ['$'] }
  | ScanMode.readOut acc => { st with out_path := acc }
  | ScanMode.readIn acc => { st with in_path := acc }

/-- The whole scan loop (smallsh.c lines 383-434). -/
def scan_loop (pid_str : List Char) : List Char → ScanMode → ScanSt → ScanSt
  | [], m, st => scan_flush m st
  | c :: rest, m, st =>
      let p := scan_step pid_str m st c
      scan_loop pid_str rest p.2 p.1

/-- `strtok(command_string, " ")` iterated to exhaustion (smallsh.c lines
450-454): split on single spaces, never yielding empty words.  `acc`
holds the current word reversed. -/
def words_split : List Char → List Char → List String
  | [], acc => if acc = [] then [] else [String.mk acc.reverse]
  | c :: rest, acc =>
      if c = ' ' then
        if acc = [] then words_split rest []
        else String.mk acc.reverse :: words_split rest []
      else words_split rest (c :: acc)

/-- The parsed command handed back by `get_input` through its out
parameters (spec section 3's `Command`). -/
structure Command where
  words : List String
  background_mode : Bool
  input_redirect : Bool
  output_redirect : Bool
  input_path : String
  output_path : String
deriving DecidableEq

/-- `strlen(command_string)` semantics (smallsh.c line 436): the command
buffer up to the first NUL. -/
def stripped_cmd (st : ScanSt) : List Char := st.cmd.takeWhile (fun c => c != NUL)

/-- The `" &"` suffix test and strip (smallsh.c lines 438-441):
`counter > 1 && command_string[counter-1] == '&' &&
command_string[counter-2] == ' '` holds exactly when the reverse of the
buffer starts with `'&'` then `' '` (the reverse having two heads is the
`counter > 1` bound); overwriting those two cells with NUL leaves the
preceding characters, i.e. the reversed tail reversed back. -/
def amp_strip (s : List Char) : Option (List Char) :=
  match s.reverse with
  | a :: b :: r => if a = '&' ∧ b = ' ' then some r.reverse else none
  | _ => none

/-- The tail of `get_input` (smallsh.c lines 436-454): strip a trailing
`" &"` if present; when one was stripped and the global background-mode
flag is on, record a background request and force both redirection flags
on (lines 442-446); finally tokenize. -/
def finalize (gbl_bg_mode : Bool) (st : ScanSt) : Command :=
  let s := stripped_cmd st
  match amp_strip s with
  | some s2 =>
      if gbl_bg_mode then
        { words := words_split s2 [], background_mode := true,
          input_redirect := true, output_redirect := true,
          input_path := String.mk st.in_path, output_path := String.mk st.out_path }
      else
        { words := words_split s2 [], background_mode := false,
          input_redirect := st.in_re, output_redirect := st.out_re,
          input_path := String.mk st.in_path, output_path := String.mk st.out_path }
  | none =>
      { words := words_split s [], background_mode := false,
        input_redirect := st.in_re, output_redirect := st.out_re,
        input_path := String.mk st.in_path, output_path := String.mk st.out_path }

/-- `get_input` (smallsh.c lines 353-457).  `pid_str` is the decimal form
of the interpreter's PID; `gbl_bg_mode` is the global `gbl_BG_MODE` read
at line 442; `input_path`/`output_path` are the caller's path buffers
(main sets both to `"/dev/null"` before each call, lines 605-606); the
out parameters `background_mode`, `input_redirect`, `output_redirect`
start off (lines 374-376) and are returned in the `Command`. -/
def get_input (pid_str : String) (gbl_bg_mode : Bool)
    (input_path output_path : String) (input_buffer : String) : Command :=
  finalize gbl_bg_mode
    (scan_loop pid_str.data input_buffer.data ScanMode.normal
      { cmd := [], in_path := input_path.data, out_path := output_path.data,
        in_re := false, out_re := false })

/-- The buffer that actually gets tokenized: the NUL-truncated command
buffer after the `" &"` strip.  `get_input`'s `words` is exactly
`words_split` of this list (independent of the background-mode flag). -/
def final_buffer (pid_str : String) (input_path output_path : String)
    (input_buffer : String) : List Char :=
  let s := stripped_cmd
    (scan_loop pid_str.data input_buffer.data ScanMode.normal
      { cmd := [], in_path := input_path.data, out_path := output_path.data,
        in_re := false, out_re := false })
  match amp_strip s with
  | some s2 => s2
  | none => s

/-! ## SIGTSTP handler (`parent_SIGTSTP`, smallsh.c lines 87-102)

`gbl_BG_MODE` only ever holds `BG_MODE_ON` (1) or `BG_MODE_OFF` (0), so it
is embedded as a `Bool`.  The handler returns the new flag value together
with the message it writes to `STDOUT_FILENO`. -/

def parent_SIGTSTP (gbl_bg_mode : Bool) : Bool × String :=
  if gbl_bg_mode = BG_MODE_ON then
    (BG_MODE_OFF, "\nBackground Mode Disabled\n:")
  else
    (BG_MODE_ON, "\nBackground Mode Enabled\n:")

/-- The banner announcing a given (new) value of the background-mode
flag: the two string literals at smallsh.c lines 93 and 97. -/
def mode_banner : Bool → String
  | false => "\nBackground Mode Disabled\n:"
  | true => "\nBackground Mode Enabled\n:"

/-! ## Built-in `cd` (`local_cd`, smallsh.c lines 147-187)

`chdir` and the filesystem are abstracted into `chdirOk : String → Bool`
(does `chdir(path)` succeed) plus an abstract current working directory
string; `getenv("HOME")` becomes the parameter `home`. -/

/-- Result of `local_cd`: its return value (`EXIT_SUCCESS`/`EXIT_FAILURE`),
the resulting working directory, and the message written to stderr
(empty on success).  `strerror(ENOENT)` is "No such file or directory",
`strerror(EINVAL)` is "Invalid argument". -/
structure CdResult where
  status : Nat
  cwd : String
  err : String
deriving DecidableEq

def local_cd (chdirOk : String → Bool) (home : String) (argc : Nat)
    (argv : List String) (cwd : String) : CdResult :=
  if argc = 2 then
    if chdirOk (argv.getD 1 "") then
      { status := EXIT_SUCCESS, cwd := argv.getD 1 "", err := "" }
    else
      { status := EXIT_FAILURE, cwd := cwd,
        err := "cd: " ++ argv.getD 1 "" ++ ": No such file or directory\n" }
  else if argc = 1 then
    if chdirOk home then
      { status := EXIT_SUCCESS, cwd := home, err := "" }
    else
      { status := EXIT_FAILURE, cwd := cwd,
        err := "cd: " ++ home ++ ": No such file or directory\n" }
  else
    { status := EXIT_FAILURE, cwd := cwd,
      err := "cd: " ++ argv.getD 2 "" ++ ": Invalid argument\n" }

/-! ## Built-in `status` (`local_status`, smallsh.c lines 196-206)

The argument is the raw `waitpid` status word.  The `W*` macros are the
glibc definitions specialized to a non-negative status:
`WIFEXITED(s) = ((s & 0x7f) == 0)`, `WEXITSTATUS(s) = ((s >> 8) & 0xff)`,
`WTERMSIG(s) = (s & 0x7f)`, and `WIFSIGNALED(s)` holds exactly when
`s & 0x7f` is neither 0 (exited) nor 0x7f (stopped). -/

def WIFEXITED (s : Nat) : Bool := s % 128 == 0
def WEXITSTATUS (s : Nat) : Nat := (s / 256) % 256
def WIFSIGNALED (s : Nat) : Bool := (s % 128 != 0) && (s % 128 != 127)
def WTERMSIG (s : Nat) : Nat := s % 128

/-- The message `local_status` prints to stdout for a given
`fg_status` word (smallsh.c lines 197-203). -/
def local_status (fg_status : Nat) : String :=
  if WIFEXITED fg_status then
    "Exit status: " ++ Nat.repr (WEXITSTATUS fg_status) ++ "\n"
  else if WIFSIGNALED fg_status then
    "Terminated by signal: " ++ Nat.repr (WTERMSIG fg_status) ++ "\n"
  else ""

/-! ## Shutdown sweep (`order_66`, smallsh.c lines 480-491) -/

/-- One `kill(pid, sig)` call. -/
structure KillEvent where
  pid : Int
  sig : Nat
deriving DecidableEq

/-- `order_66`: a first full pass sending `SIGTERM` to every slot holding
a live PID (`death_note[i] > 0`), then a second full pass sending
`SIGKILL` to the same slots.  The fixed C array of 20 slots is embedded
as a list; empty slots hold 0. -/
def order_66 (death_note : List Int) : List KillEvent :=
  (death_note.filter (fun p => decide (0 < p))).map (fun p => { pid := p, sig := SIGTERM })
    ++ (death_note.filter (fun p => decide (0 < p))).map (fun p => { pid := p, sig := SIGKILL })

/-! ## Launcher pre-fork phase (`exec_me`, smallsh.c lines 217-273)

The part of `exec_me` that runs before `fork()`: input-path normalization
and the open/close probe (lines 233-261).  `openOk p` abstracts
`open(p, O_RDONLY) != -1` and `closeOk p` abstracts `close != -1`.
Paths already starting with `"./"` or `"/"` take the `else` branch at
line 258 and are never probed.  Nothing in this code path returns early:
control always reaches the `fork()` at line 273, and `fg_status` is not
written before the fork. -/

/-- Whether the path starts with `"./"` (`strncmp(p, "./", 2) == 0`). -/
def starts_dot_slash : List Char → Bool
  | '.' :: '/' :: _ => true
  | _ => false

/-- Whether the path starts with `"/"` (`strncmp(p, "/", 1) == 0`). -/
def starts_slash : List Char → Bool
  | '/' :: _ => true
  | _ => false

/-- Outcome of the pre-fork phase: stderr messages emitted, the
normalized input path, whether control reached the `fork()` call, and
the value `fg_status` was synthesized to before the fork (`none` =
untouched). -/
structure PreForkResult where
  errors : List String
  modified_input_path : String
  fork_called : Bool
  fg_status_synthesized : Option Nat
deriving DecidableEq

def exec_me_prefork (openOk closeOk : String → Bool)
    (input_redirection : Bool) (input_redirection_path : String) : PreForkResult :=
  if input_redirection then
    if !starts_dot_slash input_redirection_path.data
        && !starts_slash input_redirection_path.data then
      let m := "./" ++ input_redirection_path
      if openOk m then
        if closeOk m then
          { errors := [], modified_input_path := m,
            fork_called := true, fg_status_synthesized := none }
        else
          { errors := ["Error closing : " ++ input_redirection_path ++ "\n"],
            modified_input_path := m,
            fork_called := true, fg_status_synthesized := none }
      else
        { errors := ["< : " ++ input_redirection_path
                      ++ ": No such file or directory\n"],
          modified_input_path := m,
          fork_called := true, fg_status_synthesized := none }
    else
      { errors := [], modified_input_path := input_redirection_path,
        fork_called := true, fg_status_synthesized := none }
  else
    { errors := [], modified_input_path := "",
      fork_called := true, fg_status_synthesized := none }

/-! ## Dispatcher and main loop (smallsh.c lines 501-528 and 561-663)

The loop-visible shell state and an event trace.  Prompts
(`prepare_terminal`), dispatches, `kill` calls, and external launches are
recorded as events; background reaping (`waitpid(-1, ..., WNOHANG)`)
depends on OS scheduling and is not modeled — no claim below depends on
it. -/

structure ShellSt where
  gbl_EXIT : Nat
  fg_status : Nat
  death_note : List Int
  cwd : String
deriving DecidableEq

inductive Event where
  | prompt
  | dispatch (argv : List String)
  | kill (pid : Int) (sig : Nat)
  | forkExec (argv : List String)
deriving DecidableEq

/-- `local_functions` (smallsh.c lines 501-528).  Returns the updated
shell state, the `function_type` and `process_type` out parameters (main
resets both to `LOCAL_FUNCTION`/`PARENT_PROCESS` before each dispatch,
lines 596-597, and the `cd`/`status`/`exit` branches leave
`function_type` at that default), and the kill events issued by the
`exit` branch. -/
structure DispatchResult where
  st : ShellSt
  function_type : Nat
  process_type : Nat
  events : List Event
deriving DecidableEq

/-- `strncmp(argv[0], "#", 1) == 0`: the word starts with `#`. -/
def is_comment (s : String) : Bool :=
  match s.data with
  | '#' :: _ => true
  | _ => false

def local_functions (chdirOk : String → Bool) (home : String)
    (argc : Nat) (argv : List String) (background_mode : Bool)
    (gbl_BG_MODE : Bool) (st : ShellSt) : DispatchResult :=
  let a0 := argv.getD 0 ""
  if a0 = "cd" then
    let r := local_cd chdirOk home argc argv st.cwd
    { st := { st with fg_status := r.status, cwd := r.cwd },
      function_type := LOCAL_FUNCTION, process_type := PARENT_PROCESS, events := [] }
  else if a0 = "status" then
    { st := st, function_type := LOCAL_FUNCTION, process_type := PARENT_PROCESS,
      events := [] }
  else if a0 = "exit" then
    { st := { st with gbl_EXIT := DO_EXIT },
      function_type := LOCAL_FUNCTION, process_type := PARENT_PROCESS,
      events := (order_66 st.death_note).map (fun k => Event.kill k.pid k.sig) }
  else if is_comment a0 then
    { st := st, function_type := LOCAL_FUNCTION, process_type := PARENT_PROCESS,
      events := [] }
  else
    { st := st, function_type := EXEC_FUNCTION,
      process_type :=
        if background_mode && gbl_BG_MODE then BG_CHILD_PROCESS
        else FG_CHILD_PROCESS,
      events := [] }

/-- The main loop (smallsh.c lines 582-662) driven by a script of parsed
commands (one `Command` per `get_input` call) and a fuel bound.  Each
iteration: while the loop guard `gbl_EXIT == NO_EXIT` holds, prompt
(line 623); an empty parse re-prompts without dispatching (the inner
`while (cmd_argc == 0)` loop, lines 614-629); a non-empty parse is
dispatched through `local_functions` and, when `function_type` came back
as `EXEC_FUNCTION`, launched (lines 631-643).  When the guard fails the
loop ends and `main` falls off its final brace, returning
`EXIT_SUCCESS`.  Fuel exhaustion and running out of script lines return
the distinguishable markers 99 and 98 (never reached in the theorems
below). -/
def shell_run (chdirOk : String → Bool) (home : String) (gbl_BG_MODE : Bool) :
    Nat → List Command → ShellSt → List Event × Nat
  | 0, _, _ => ([], 99)
  | Nat.succ fuel, script, st =>
      if st.gbl_EXIT = NO_EXIT then
        match script with
        | [] => ([], 98)
        | cmd :: rest =>
            if cmd.words = [] then
              let r := shell_run chdirOk home gbl_BG_MODE fuel rest st
              (Event.prompt :: r.1, r.2)
            else
              let d := local_functions chdirOk home cmd.words.length cmd.words
                cmd.background_mode gbl_BG_MODE st
              let ex := if d.function_type = EXEC_FUNCTION
                then [Event.forkExec cmd.words] else []
              let r := shell_run chdirOk home gbl_BG_MODE fuel rest d.st
              (Event.prompt :: Event.dispatch cmd.words :: (d.events ++ ex ++ r.1), r.2)
      else ([], EXIT_SUCCESS)

/-- The property that a trace event carrying an argument vector (a
dispatch or an external launch) carries a non-empty one. -/
def dispatch_nonempty (e : Event) : Bool :=
  match e with
  | Event.dispatch w => decide (w ≠ [])
  | Event.forkExec w => decide (w ≠ [])
  | _ => true

/-! ## Claim theorems -/

/-- Claim C9: the SIGTSTP handler is an involution on the background-mode
flag: each invocation flips the flag to the opposite value and writes the
banner announcing the new mode, and two consecutive invocations restore
the original value. -/
theorem sigtstp_involution :
    ∀ b : Bool,
      (parent_SIGTSTP b).1 = !b ∧
      (parent_SIGTSTP (parent_SIGTSTP b).1).1 = b ∧
      (parent_SIGTSTP b).2 = mode_banner (!b) := by decide

/-- Claim C2, counterexample: the claim says a stop signal arriving while
a foreground command runs makes the handler only set a pending flag and
return "without flipping BackgroundModeFlag or writing any message".  But
`parent_SIGTSTP` is the one handler installed at all times (sig_handlers
is re-installed at smallsh.c line 309 right before the foreground
`waitpid`), and from either flag state it flips the flag and writes a
non-empty banner; smallsh has no pending-toggle flag and no deferred
flip in the main loop. -/
theorem sigtstp_busy_defers_cx :
    (parent_SIGTSTP true).1 = false ∧ (parent_SIGTSTP true).2 ≠ "" ∧
    (parent_SIGTSTP false).1 = true ∧ (parent_SIGTSTP false).2 ≠ "" := by decide

/-- Claim C2, amended: every delivery of the stop signal to the parent —
the same handler is installed whether the loop is idle or running a
foreground command — immediately flips the background-mode flag and
writes the banner for the new mode; nothing is deferred. -/
theorem sigtstp_always_flips_and_writes :
    ∀ b : Bool,
      (parent_SIGTSTP b).1 = !b ∧
      (parent_SIGTSTP b).2 = mode_banner (!b) ∧
      (parent_SIGTSTP b).2 ≠ "" := by decide

/-- Claim C7, counterexample: after a foreground command exited with code
7 the `status` built-in prints `"Exit status: 7"` (capital E, trailing
newline), not the claimed exact text `"exit status: 7"`; likewise the
signal message is capitalized. -/
theorem status_message_capitalization_cx :
    local_status (7 * 256) = "Exit status: 7\n" ∧
    local_status (7 * 256) ≠ "exit status: 7" ∧
    local_status (7 * 256) ≠ "exit status: 7\n" ∧
    local_status 9 = "Terminated by signal: 9\n" ∧
    local_status 9 ≠ "terminated by signal: 9" ∧
    local_status 9 ≠ "terminated by signal: 9\n" := by decide

/-- Claim C7, amended: when the last foreground command terminated
normally with exit code N the `status` built-in prints exactly
`"Exit status: N\n"`, and when it was killed by signal N it prints
exactly `"Terminated by signal: N\n"` (capitalized messages). -/
theorem status_message_formats :
    (∀ n : Nat, n ≤ 255 →
      local_status (n * 256) = "Exit status: " ++ Nat.repr n ++ "\n") ∧
    (∀ s : Nat, 1 ≤ s → s ≤ 126 →
      local_status s = "Terminated by signal: " ++ Nat.repr s ++ "\n") := by
  constructor
  · intro n hn
    have h1 : (n * 256) % 128 = 0 := by omega
    have h2 : (n * 256) / 256 % 256 = n := by omega
    have h3 : n % 256 = n := by omega
    simp [local_status, WIFEXITED, WEXITSTATUS, h1, h2, h3]
  · intro s h1 h2
    have e1 : s % 128 = s := by omega
    have e2 : ¬ (s = 0) := by omega
    have e3 : ¬ (s = 127) := by omega
    simp [local_status, WIFEXITED, WIFSIGNALED, WTERMSIG, e1, e2, e3]

/-- Claim C7 witness: the amended claim at exit code 7 and signal 9. -/
theorem status_message_formats_witness :
    local_status (7 * 256) = "Exit status: 7\n" ∧
    local_status 9 = "Terminated by signal: 9\n" := by
  constructor
  · rw [status_message_formats.1 7 (by norm_num)]; rfl
  · rw [status_message_formats.2 9 (by norm_num) (by norm_num)]; rfl

/-- Claim C1, counterexample: with input redirection requested for a bare
path that names nothing readable (`openOk` false everywhere, so the path
is neither a readable regular file nor the null device), `exec_me`
reports the failure but still reaches the `fork()` call and never
synthesizes `fg_status` to 1 — contradicting "sets LastForegroundStatus
to exit-code 1, and does not fork". -/
theorem input_redirect_failure_still_forks_cx :
    (exec_me_prefork (fun _ => false) (fun _ => true) true "nofile").errors
        = ["< : nofile: No such file or directory\n"] ∧
    (exec_me_prefork (fun _ => false) (fun _ => true) true "nofile").fork_called = true ∧
    (exec_me_prefork (fun _ => false) (fun _ => true) true "nofile").fg_status_synthesized
        = none := by decide

/-- Claim C1, amended: when input redirection is requested with a bare
path (no leading `./` or `/`) that cannot be opened, `exec_me` reports
the failure to the error stream, but it neither sets the foreground
status nor skips the fork — control always reaches `fork()` with
`fg_status` untouched; and a path that already starts with `./` or `/`
is not validated at all before the fork. -/
theorem input_redirect_failure_reports_but_forks :
    ∀ (openOk closeOk : String → Bool) (re : Bool) (path : String),
      (exec_me_prefork openOk closeOk re path).fork_called = true ∧
      (exec_me_prefork openOk closeOk re path).fg_status_synthesized = none ∧
      (re = true → starts_dot_slash path.data = false → starts_slash path.data = false →
        openOk ("./" ++ path) = false →
        (exec_me_prefork openOk closeOk re path).errors
          = ["< : " ++ path ++ ": No such file or directory\n"]) ∧
      (re = true →
        (starts_dot_slash path.data = true ∨ starts_slash path.data = true) →
        (exec_me_prefork openOk closeOk re path).errors = []) := by
  intro openOk closeOk re path
  unfold exec_me_prefork
  cases re with
  | false => simp
  | true =>
      by_cases hd : starts_dot_slash path.data
      · simp [hd]
      · by_cases hs : starts_slash path.data
        · simp [hd, hs]
        · by_cases ho : openOk ("./" ++ path)
          · by_cases hc : closeOk ("./" ++ path) <;>
              simp [hd, hs, ho, hc]
          · simp [hd, hs, ho]

/-- Claim C1 witness: the amended claim at a bare unreadable path. -/
theorem input_redirect_failure_reports_but_forks_witness :
    (exec_me_prefork (fun _ => false) (fun _ => true) true "nofile").fork_called = true ∧
    (exec_me_prefork (fun _ => false) (fun _ => true) true "nofile").errors
      = ["< : nofile: No such file or directory\n"] := by
  have h := input_redirect_failure_reports_but_forks
    (fun _ => false) (fun _ => true) true "nofile"
  exact ⟨h.1, h.2.2.1 rfl (by decide) (by decide) rfl⟩

/-- Claim C5: `cd` with two or more arguments (`argc ≥ 3`, counting the
verb) fails with an invalid-argument message and leaves the working
directory unchanged; the dispatcher stores `local_cd`'s return value —
0 on success, 1 on failure — into the foreground status on every `cd`,
and that value tracks exactly whether the `chdir` succeeded. -/
theorem cd_arg_validation_and_status :
    (∀ (chdirOk : String → Bool) (home : String) (argc : Nat)
        (argv : List String) (cwd : String),
      3 ≤ argc →
        local_cd chdirOk home argc argv cwd =
          { status := EXIT_FAILURE, cwd := cwd,
            err := "cd: " ++ argv.getD 2 "" ++ ": Invalid argument\n" }) ∧
    (∀ (chdirOk : String → Bool) (home : String) (argv : List String)
        (bg g : Bool) (st : ShellSt),
      argv.getD 0 "" = "cd" →
        (local_functions chdirOk home argv.length argv bg g st).st.fg_status
            = (local_cd chdirOk home argv.length argv st.cwd).status ∧
        (local_functions chdirOk home argv.length argv bg g st).st.cwd
            = (local_cd chdirOk home argv.length argv st.cwd).cwd) ∧
    (∀ (chdirOk : String → Bool) (home : String) (argc : Nat)
        (argv : List String) (cwd : String),
      (local_cd chdirOk home argc argv cwd).status = EXIT_SUCCESS ∨
        (local_cd chdirOk home argc argv cwd).status = EXIT_FAILURE) ∧
    (∀ (chdirOk : String → Bool) (home : String) (argv : List String) (cwd : String),
      ((local_cd chdirOk home 2 argv cwd).status = EXIT_SUCCESS ↔
        chdirOk (argv.getD 1 "") = true) ∧
      ((local_cd chdirOk home 1 argv cwd).status = EXIT_SUCCESS ↔
        chdirOk home = true)) := by
  refine ⟨?_, ?_, ?_, ?_⟩
  · intro chdirOk home argc argv cwd h
    have h2 : ¬ (argc = 2) := by omega
    have h1 : ¬ (argc = 1) := by omega
    simp [local_cd, h1, h2]
  · intro chdirOk home argv bg g st h
    have h2 : argv[0]?.getD "" = "cd" := by simpa [List.getD] using h
    simp [local_functions, h2]
  · intro chdirOk home argc argv cwd
    unfold local_cd
    split
    · split <;> simp
    · split
      · split <;> simp
      · simp
  · intro chdirOk home argv cwd
    constructor
    · simp only [local_cd, EXIT_SUCCESS, EXIT_FAILURE]
      norm_num
      split <;> simp_all
    · simp only [local_cd, EXIT_SUCCESS, EXIT_FAILURE]
      norm_num
      split <;> simp_all

/-- Claim C5 witness: the theorem applied to `cd a b` (three words). -/
theorem cd_arg_validation_and_status_witness :
    local_cd (fun _ => true) "/home/u" 3 ["cd", "a", "b"] "/w" =
      { status := EXIT_FAILURE, cwd := "/w", err := "cd: b: Invalid argument\n" } ∧
    (local_functions (fun _ => true) "/home/u" 3 ["cd", "a", "b"] false true
        { gbl_EXIT := NO_EXIT, fg_status := 0, death_note := [], cwd := "/w" }).st.fg_status
      = (local_cd (fun _ => true) "/home/u" 3 ["cd", "a", "b"] "/w").status := by
  constructor
  · rw [cd_arg_validation_and_status.1 (fun _ => true) "/home/u" 3
      ["cd", "a", "b"] "/w" (by norm_num)]
    rfl
  · exact (cd_arg_validation_and_status.2.1 (fun _ => true) "/home/u"
      ["cd", "a", "b"] false true
      { gbl_EXIT := NO_EXIT, fg_status := 0, death_note := [], cwd := "/w" } (by decide)).1

/-- Helper: in a concatenation of a SIGTERM-only pass and a SIGKILL-only
pass, every index holding a SIGTERM event precedes every index holding a
SIGKILL event. -/
theorem two_pass_index_lt {A B : List KillEvent}
    (hA : ∀ e ∈ A, e.sig = SIGTERM) (hB : ∀ e ∈ B, e.sig = SIGKILL)
    (i j : Nat) (hi : i < (A ++ B).length) (hj : j < (A ++ B).length)
    (hT : ((A ++ B).get ⟨i, hi⟩).sig = SIGTERM)
    (hK : ((A ++ B).get ⟨j, hj⟩).sig = SIGKILL) : i < j := by
  rw [List.get_eq_getElem] at hT hK
  have hleni := hi
  simp only [List.length_append] at hleni
  have hlenj := hj
  simp only [List.length_append] at hlenj
  have hiA : i < A.length := by
    by_contra hc
    push_neg at hc
    have hb : i - A.length < B.length := by omega
    have e : (A ++ B)[i] = B[i - A.length] := List.getElem_append_right hc
    have hsig := hB _ (List.getElem_mem hb)
    rw [e] at hT
    rw [hT] at hsig
    simp [SIGTERM, SIGKILL] at hsig
  have hjB : A.length ≤ j := by
    by_contra hc
    push_neg at hc
    have e : (A ++ B)[j] = A[j] := List.getElem_append_left hc
    have hsig := hA _ (List.getElem_mem hc)
    rw [e] at hK
    rw [hK] at hsig
    simp [SIGTERM, SIGKILL] at hsig
  omega

/-- Claim C4: the `exit` built-in shuts down in two full, non-interleaved
passes over the background registry — every live PID appears with a
SIGTERM event, every live PID appears with a SIGKILL event, and every
SIGTERM event precedes every SIGKILL event — after which the loop guard
fails: the run produces no further prompt and the interpreter returns
`EXIT_SUCCESS`. -/
theorem exit_two_pass_sweep_then_halt :
    (∀ (dn : List Int) (p : Int), p ∈ dn → 0 < p →
      ({ pid := p, sig := SIGTERM } : KillEvent) ∈ order_66 dn ∧
      ({ pid := p, sig := SIGKILL } : KillEvent) ∈ order_66 dn) ∧
    (∀ (dn : List Int) (i j : Nat) (hi : i < (order_66 dn).length)
        (hj : j < (order_66 dn).length),
      ((order_66 dn).get ⟨i, hi⟩).sig = SIGTERM →
      ((order_66 dn).get ⟨j, hj⟩).sig = SIGKILL → i < j) ∧
    (∀ (chdirOk : String → Bool) (home : String) (g : Bool) (fuel : Nat)
        (script : List Command) (fg : Nat) (dn : List Int) (cwd : String)
        (b ir outr : Bool) (ip op : String),
      shell_run chdirOk home g (fuel + 2)
          ({ words := ["exit"], background_mode := b, input_redirect := ir,
             output_redirect := outr, input_path := ip, output_path := op } :: script)
          { gbl_EXIT := NO_EXIT, fg_status := fg, death_note := dn, cwd := cwd } =
        (Event.prompt :: Event.dispatch ["exit"]
            :: (order_66 dn).map (fun k => Event.kill k.pid k.sig),
         EXIT_SUCCESS)) := by
  refine ⟨?_, ?_, ?_⟩
  · intro dn p hp hpos
    constructor
    · refine List.mem_append.mpr (Or.inl ?_)
      exact List.mem_map.mpr ⟨p, List.mem_filter.mpr ⟨hp, by simpa using hpos⟩, rfl⟩
    · refine List.mem_append.mpr (Or.inr ?_)
      exact List.mem_map.mpr ⟨p, List.mem_filter.mpr ⟨hp, by simpa using hpos⟩, rfl⟩
  · intro dn i j hi hj hT hK
    have hA : ∀ e ∈ (dn.filter (fun p => decide (0 < p))).map
        (fun p => ({ pid := p, sig := SIGTERM } : KillEvent)), e.sig = SIGTERM := by
      intro e he
      obtain ⟨p, -, rfl⟩ := List.mem_map.mp he
      rfl
    have hB : ∀ e ∈ (dn.filter (fun p => decide (0 < p))).map
        (fun p => ({ pid := p, sig := SIGKILL } : KillEvent)), e.sig = SIGKILL := by
      intro e he
      obtain ⟨p, -, rfl⟩ := List.mem_map.mp he
      rfl
    exact two_pass_index_lt hA hB i j hi hj hT hK
  · intro chdirOk home g fuel script fg dn cwd b ir outr ip op
    have e : fuel + 2 = Nat.succ (fuel + 1) := rfl
    rw [e]
    simp [shell_run, local_functions, is_comment, NO_EXIT, DO_EXIT,
      EXIT_SUCCESS, LOCAL_FUNCTION, EXEC_FUNCTION]

/-- Claim C4 witness: the theorem applied to a registry holding live PIDs
3 and 5; index 0 holds a SIGTERM event and index 2 a SIGKILL event. -/
theorem exit_two_pass_sweep_then_halt_witness :
    (({ pid := 3, sig := SIGTERM } : KillEvent) ∈ order_66 [3, 5] ∧
     ({ pid := 3, sig := SIGKILL } : KillEvent) ∈ order_66 [3, 5]) ∧
    (0 : Nat) < 2 := by
  refine ⟨exit_two_pass_sweep_then_halt.1 [3, 5] 3 (by decide) (by decide), ?_⟩
  exact exit_two_pass_sweep_then_halt.2.1 [3, 5] 0 2 (by decide) (by decide)
    (by decide) (by decide)

/-! ## Parser helper lemmas -/

/-- A trailing `" &"` is recognized exactly on buffers of the form
`t ++ [' ', '&']`, and stripping leaves `t`. -/
theorem amp_strip_eq_some_iff (s t : List Char) :
    amp_strip s = some t ↔ s = t ++ [' ', '&'] := by
  constructor
  · intro h
    unfold amp_strip at h
    cases hr : s.reverse with
    | nil => rw [hr] at h; simp at h
    | cons a t2 =>
        cases t2 with
        | nil => rw [hr] at h; simp at h
        | cons b r =>
            rw [hr] at h
            simp only [] at h
            by_cases hab : a = '&' ∧ b = ' '
            · obtain ⟨ha, hb⟩ := hab
              rw [if_pos ⟨ha, hb⟩] at h
              have ht : r.reverse = t := by simpa using h
              subst ha hb
              have : s = (('&' : Char) :: ' ' :: r).reverse := by
                rw [← hr, List.reverse_reverse]
              rw [this]
              simp [← ht]
            · rw [if_neg hab] at h
              simp at h
  · intro h
    subst h
    unfold amp_strip
    simp

/-- `words_split` with a non-empty pending word never returns the empty
list. -/
theorem words_split_ne_nil (s : List Char) :
    ∀ acc : List Char, acc ≠ [] → words_split s acc ≠ [] := by
  induction s with
  | nil => intro acc h; simp [words_split, h]
  | cons c rest ih =>
      intro acc h
      by_cases hc : c = ' '
      · simp [words_split, hc, h]
      · simp only [words_split, if_neg hc]
        exact ih (c :: acc) (by simp)

/-- Tokenization yields no words exactly when the buffer holds nothing
but spaces. -/
theorem words_split_eq_nil_iff (s : List Char) :
    words_split s [] = [] ↔ ∀ c ∈ s, c = ' ' := by
  induction s with
  | nil => simp [words_split]
  | cons c rest ih =>
      by_cases hc : c = ' '
      · simp [words_split, hc, ih]
      · simp [words_split, hc, words_split_ne_nil rest [c] (by simp)]

/-- Tokenizing a buffer that contains no space yields that buffer as the
single word (appended to the pending accumulator). -/
theorem words_split_no_space (p : List Char) :
    ∀ acc : List Char, p ≠ [] → (∀ c ∈ p, c ≠ ' ') →
      words_split p acc = [String.mk (acc.reverse ++ p)] := by
  induction p with
  | nil => intro acc h; exact absurd rfl h
  | cons c rest ih =>
      intro acc hne hsp
      have hc : c ≠ ' ' := hsp c (by simp)
      by_cases hr : rest = []
      · subst hr
        simp [words_split, hc]
      · simp only [words_split, if_neg hc]
        rw [ih (c :: acc) hr (fun x hx => hsp x (by simp [hx]))]
        simp

/-- `strlen` semantics: a NUL-free prefix followed by a NUL truncates to
the prefix. -/
theorem takeWhile_append_nul (l : List Char) (h : ∀ c ∈ l, c ≠ NUL) :
    (l ++ [NUL]).takeWhile (fun c => c != NUL) = l := by
  induction l with
  | nil => simp [List.takeWhile]
  | cons c rest ih =>
      have hc : c ≠ NUL := h c (by simp)
      simp only [List.cons_append, List.takeWhile_cons]
      rw [if_pos (by simpa using hc)]
      rw [ih (fun x hx => h x (by simp [hx]))]

/-- Decimal digits are not NUL, space, or ampersand. -/
theorem digit_char_ne (c : Char) (h : c.isDigit = true) :
    c ≠ NUL ∧ c ≠ ' ' ∧ c ≠ '&' := by
  refine ⟨?_, ?_, ?_⟩ <;> intro he <;> rw [he] at h <;> exact absurd h (by decide)

/-- Every event `local_functions` emits satisfies `dispatch_nonempty`
(they are all `kill` events from the `exit` sweep). -/
theorem local_functions_events_nonempty (chdirOk : String → Bool) (home : String)
    (argc : Nat) (argv : List String) (bg g : Bool) (st : ShellSt) :
    ((local_functions chdirOk home argc argv bg g st).events.all dispatch_nonempty)
      = true := by
  by_cases h1 : argv[0]?.getD "" = "cd"
  · simp [local_functions, h1]
  · by_cases h2 : argv[0]?.getD "" = "status"
    · simp [local_functions, h1, h2]
    · by_cases h3 : argv[0]?.getD "" = "exit"
      · simp [local_functions, h1, h2, h3, List.all_eq_true]
        intro e he
        rfl
      · by_cases h4 : is_comment (argv[0]?.getD "") <;>
          simp [local_functions, h1, h2, h3, h4]

/-! ## Parser claim theorems -/

/-- Claim C3: a command buffer of the form `t ++ " &"` (space then
ampersand as the final two characters; the two-element suffix forces
length over 1) always has the marker stripped before tokenization,
whatever the background-mode flag; `background_requested` comes back
equal to the flag, and when the flag is on, both redirection flags are
forced on — with the `/dev/null` defaults surviving as the paths when
the line gave none, as the concrete `"sleep 5 &\n"` parses show. -/
theorem amp_marker_strip_and_bg_force :
    (∀ s t : List Char, amp_strip s = some t ↔ s = t ++ [' ', '&']) ∧
    (∀ (g : Bool) (st : ScanSt) (t : List Char),
      amp_strip (stripped_cmd st) = some t →
        (finalize g st).words = words_split t [] ∧
        (finalize g st).background_mode = g ∧
        (g = true → (finalize g st).input_redirect = true ∧
          (finalize g st).output_redirect = true) ∧
        (g = false → (finalize g st).input_redirect = st.in_re ∧
          (finalize g st).output_redirect = st.out_re)) ∧
    (get_input "42" true "/dev/null" "/dev/null" "sleep 5 &\n" =
      { words := ["sleep", "5"], background_mode := true,
        input_redirect := true, output_redirect := true,
        input_path := "/dev/null", output_path := "/dev/null" } ∧
     get_input "42" false "/dev/null" "/dev/null" "sleep 5 &\n" =
      { words := ["sleep", "5"], background_mode := false,
        input_redirect := false, output_redirect := false,
        input_path := "/dev/null", output_path := "/dev/null" }) := by
  refine ⟨amp_strip_eq_some_iff, ?_, by decide, by decide⟩
  intro g st t h
  cases g <;> simp [finalize, h]

/-- Claim C3 witness: the strip-and-force conclusion at the concrete
buffer `"l &"`. -/
theorem amp_marker_strip_and_bg_force_witness :
    (finalize true
      { cmd := ['l', ' ', '&'], in_path := [], out_path := [],
        in_re := false, out_re := false }).words = words_split ['l'] [] ∧
    (finalize true
      { cmd := ['l', ' ', '&'], in_path := [], out_path := [],
        in_re := false, out_re := false }).background_mode = true := by
  have h := amp_marker_strip_and_bg_force.2.1 true
    { cmd := ['l', ' ', '&'], in_path := [], out_path := [],
      in_re := false, out_re := false } ['l'] (by decide)
  exact ⟨h.1, h.2.1⟩

/-- Claim C6: a `$$` with both characters present expands in place to the
PID string before further scanning (the scan-step equation), and parsing
`"echo $$\n"` yields exactly `["echo", pid]` with no redirection and no
background request, for any PID rendered as a non-empty digit string. -/
theorem pid_expansion_parse :
    (∀ (p rest : List Char) (st : ScanSt),
      scan_loop p ('$' :: '$' :: rest) ScanMode.normal st
        = scan_loop p rest ScanMode.normal { st with cmd := st.cmd ++ p }) ∧
    (∀ (pid_str : String) (g : Bool) (d1 d2 : String),
      (∀ c ∈ pid_str.data, c.isDigit = true) → pid_str ≠ "" →
      get_input pid_str g d1 d2 "echo $$\n" =
        { words := ["echo", pid_str], background_mode := false,
          input_redirect := false, output_redirect := false,
          input_path := d1, output_path := d2 }) := by
  constructor
  · intro p rest st
    rfl
  · intro pid g d1 d2 hdig hne
    have hPne : pid.data ≠ [] := by
      intro hp
      apply hne
      obtain ⟨data⟩ := pid
      simp at hp
      simp [hp]
    have hdata : ("echo $$\n" : String).data = ['e', 'c', 'h', 'o', ' ', '$', '$', '\n'] := rfl
    have hscan : scan_loop pid.data ("echo $$\n").data ScanMode.normal
        { cmd := [], in_path := d1.data, out_path := d2.data,
          in_re := false, out_re := false }
      = { cmd := 'e' :: 'c' :: 'h' :: 'o' :: ' ' :: (pid.data ++ [NUL]),
          in_path := d1.data, out_path := d2.data,
          in_re := false, out_re := false } := by
      rw [hdata]
      simp [scan_loop, scan_step, normal_step, scan_flush]
    have hstrip : stripped_cmd
        { cmd := 'e' :: 'c' :: 'h' :: 'o' :: ' ' :: (pid.data ++ [NUL]),
          in_path := d1.data, out_path := d2.data,
          in_re := false, out_re := false }
      = 'e' :: 'c' :: 'h' :: 'o' :: ' ' :: pid.data := by
      simp only [stripped_cmd, List.takeWhile_cons]
      rw [if_pos (by decide), if_pos (by decide), if_pos (by decide),
        if_pos (by decide), if_pos (by decide)]
      rw [takeWhile_append_nul pid.data (fun c hc => (digit_char_ne c (hdig c hc)).1)]
    obtain ⟨c0, P1, hrev⟩ : ∃ c0 P1, pid.data.reverse = c0 :: P1 := by
      cases hr : pid.data.reverse with
      | nil => exact absurd (by simpa using hr) hPne
      | cons a t => exact ⟨a, t, rfl⟩
    have hc0mem : c0 ∈ pid.data := by
      have : c0 ∈ pid.data.reverse := by rw [hrev]; simp
      exact List.mem_reverse.mp this
    have hc0 : c0 ≠ '&' := (digit_char_ne c0 (hdig c0 hc0mem)).2.2
    have hamp : amp_strip ('e' :: 'c' :: 'h' :: 'o' :: ' ' :: pid.data) = none := by
      unfold amp_strip
      have hsrev : ('e' :: 'c' :: 'h' :: 'o' :: ' ' :: pid.data).reverse
          = c0 :: (P1 ++ [' ', 'o', 'h', 'c', 'e']) := by
        simp [hrev]
      rw [hsrev]
      cases P1 with
      | nil => simp [hc0]
      | cons b P2 => simp [hc0]
    have hwords : words_split ('e' :: 'c' :: 'h' :: 'o' :: ' ' :: pid.data) []
        = ["echo", pid] := by
      simp only [words_split, if_neg (by decide : ¬ ('e' = ' ')),
        if_neg (by decide : ¬ ('c' = ' ')), if_neg (by decide : ¬ ('h' = ' ')),
        if_neg (by decide : ¬ ('o' = ' ')), if_pos (rfl : (' ' : Char) = ' '),
        if_neg (by decide : ¬ (['o', 'h', 'c', 'e'] = ([] : List Char)))]
      rw [words_split_no_space pid.data [] hPne
        (fun c hc => (digit_char_ne c (hdig c hc)).2.1)]
      rfl
    unfold get_input
    rw [hscan]
    unfold finalize
    rw [hstrip]
    simp [hamp, hwords]

/-- Claim C6 witness: the parse conclusion at PID 42. -/
theorem pid_expansion_parse_witness :
    get_input "42" true "/dev/null" "/dev/null" "echo $$\n" =
      { words := ["echo", "42"], background_mode := false,
        input_redirect := false, output_redirect := false,
        input_path := "/dev/null", output_path := "/dev/null" } :=
  pid_expansion_parse.2 "42" true "/dev/null" "/dev/null" (by decide) (by decide)

/-- Claim C8, counterexample: the line `"> out\n"` is not blank, yet its
parse has empty `words` — the whole line is consumed as an output
redirection.  So "`words` is empty if and only if the user entered a
blank line" fails in the only-if direction. -/
theorem empty_words_not_only_blank_cx :
    (get_input "42" true "/dev/null" "/dev/null" "> out\n").words = [] ∧
    ("> out\n" : String) ≠ "\n" ∧ ("> out\n" : String) ≠ "" := by decide

/-- Claim C8, amended: `words` is empty exactly when the stripped command
buffer contains nothing but spaces (a blank line is one such case, since
redirections, `" &"` markers and the characters they consume never reach
the buffer); and an empty parse makes the main loop re-prompt — consuming
a prompt and nothing else — so every dispatched or launched argument
vector in any run is non-empty. -/
theorem empty_words_iff_space_only_and_reprompt :
    (∀ (pid_str : String) (g : Bool) (d1 d2 inp : String),
      (get_input pid_str g d1 d2 inp).words = [] ↔
        ∀ c ∈ final_buffer pid_str d1 d2 inp, c = ' ') ∧
    (∀ (pid_str : String) (g : Bool) (d1 d2 : String),
      (get_input pid_str g d1 d2 "\n").words = []) ∧
    (∀ (chdirOk : String → Bool) (home : String) (g : Bool) (fuel : Nat)
        (script : List Command) (st : ShellSt),
      ((shell_run chdirOk home g fuel script st).1.all dispatch_nonempty) = true) ∧
    (∀ (chdirOk : String → Bool) (home : String) (g : Bool) (fuel : Nat)
        (rest : List Command) (fg : Nat) (dn : List Int) (cwd : String)
        (b ir outr : Bool) (ip op : String),
      shell_run chdirOk home g (fuel + 1)
          ({ words := [], background_mode := b, input_redirect := ir,
             output_redirect := outr, input_path := ip, output_path := op } :: rest)
          { gbl_EXIT := NO_EXIT, fg_status := fg, death_note := dn, cwd := cwd } =
        (Event.prompt ::
          (shell_run chdirOk home g fuel rest
            { gbl_EXIT := NO_EXIT, fg_status := fg, death_note := dn, cwd := cwd }).1,
         (shell_run chdirOk home g fuel rest
            { gbl_EXIT := NO_EXIT, fg_status := fg, death_note := dn, cwd := cwd }).2)) := by
  refine ⟨?_, ?_, ?_, ?_⟩
  · intro pid g d1 d2 inp
    have hw : (get_input pid g d1 d2 inp).words
        = words_split (final_buffer pid d1 d2 inp) [] := by
      unfold get_input finalize final_buffer
      cases hamp : amp_strip (stripped_cmd
          (scan_loop pid.data inp.data ScanMode.normal
            { cmd := [], in_path := d1.data, out_path := d2.data,
              in_re := false, out_re := false })) with
      | none => simp [hamp]
      | some t => cases g <;> simp [hamp]
    rw [hw]
    exact words_split_eq_nil_iff _
  · intro pid g d1 d2
    rfl
  · intro chdirOk home g fuel
    induction fuel with
    | zero => intro script st; simp [shell_run]
    | succ n ih =>
        intro script st
        by_cases hg : st.gbl_EXIT = NO_EXIT
        · cases script with
          | nil => simp [shell_run, hg]
          | cons cmd rest =>
              by_cases hw : cmd.words = []
              · simp [shell_run, hg, hw, dispatch_nonempty, ih]
              · simp [shell_run, hg, hw, dispatch_nonempty, ih,
                  local_functions_events_nonempty]
        · simp [shell_run, hg]
  · intro chdirOk home g fuel rest fg dn cwd b ir outr ip op
    have e : fuel + 1 = Nat.succ fuel := rfl
    rw [e]
    simp [shell_run, NO_EXIT]

/-- Claim C8 witness: the amended equivalence applied to the all-space
line `" \n"`, whose stripped buffer is the single space. -/
theorem empty_words_iff_space_only_and_reprompt_witness :
    (get_input "42" true "/dev/null" "/dev/null" " \n").words = [] :=
  (empty_words_iff_space_only_and_reprompt.1 "42" true "/dev/null" "/dev/null"
    " \n").mpr (by decide)

/-- Claim C10: a `>` or `<` whose next character is not a space — in
particular one at the end of the line — does not begin a redirection: the
scanner appends it to the command buffer like any ordinary character and
leaves the whole state (including both redirection flags) exactly as a
plain character would, so it can surface inside an argv word, as the
parse of `"echo a>b x<y\n"` shows with both flags off. -/
theorem angle_without_space_is_ordinary :
    (∀ (c : Char) (p rest : List Char) (st : ScanSt),
      (c = '>' ∨ c = '<') → rest.head? ≠ some ' ' →
        scan_loop p (c :: rest) ScanMode.normal st
          = scan_loop p rest ScanMode.normal { st with cmd := st.cmd ++ [c] }) ∧
    (∀ g : Bool,
      get_input "42" g "/dev/null" "/dev/null" "echo a>b x<y\n" =
        { words := ["echo", "a>b", "x<y"], background_mode := false,
          input_redirect := false, output_redirect := false,
          input_path := "/dev/null", output_path := "/dev/null" }) := by
  constructor
  · intro c p rest st hc hsp
    cases rest with
    | nil => rcases hc with rfl | rfl <;> rfl
    | cons c2 rest2 =>
        have h2 : ¬ (c2 = ' ') := by simpa using hsp
        rcases hc with rfl | rfl <;>
          simp [scan_loop, scan_step, normal_step, h2]
  · intro g
    cases g <;> decide

/-- Claim C10 witness: the step equation applied to `'>'` followed by
`'b'`. -/
theorem angle_without_space_is_ordinary_witness :
    scan_loop "42".data ['>', 'b', '\n'] ScanMode.normal
      { cmd := [], in_path := [], out_path := [], in_re := false, out_re := false }
    = scan_loop "42".data ['b', '\n'] ScanMode.normal
      { cmd := ['>'], in_path := [], out_path := [], in_re := false, out_re := false } := by
  have h := angle_without_space_is_ordinary.1 '>' "42".data ['b', '\n']
    { cmd := [], in_path := [], out_path := [], in_re := false, out_re := false }
    (Or.inl rfl) (by decide)
  simpa using h

end Smallsh
